import Mathlib

/-
Verification of the Synchronization and Secure-Ingress subsystem of the
KS-Application repository: the durable sync-job queue with retry/backoff
(src/Roblox/database/sync_queue.js, class SyncQueueDatabase), the worker
(src/Roblox/utils/role_sync.js, class RoleSyncManager), the link store with
API-key credentials (class RobloxLinksDatabase), the authentication
middleware (src/Roblox/api/auth.js), and the group-ownership verifier
(class RobloxVerification).

Conventions of the shallow embedding:
- Timestamps are Nat epoch milliseconds (the JS code stores ISO strings and
  compares them through Date objects, which is equivalent to comparing the
  underlying millisecond values).
- JS numbers that hold ranks and priorities are modelled as Int; counters as
  Nat.
- The data store (data/db_handler) serialises read-modify-write per path, so
  every operation is modelled as a pure function from state to state.
- Cryptographic primitives (salted SHA-256 digest of an API key) are
  modelled by an abstract parameter hash : String to String; random key and
  code generation is modelled by passing the generated value as an argument.
-/

namespace KS

/-- Job status values (SYNC_STATUS from shared/constants, whose value
strings are named in the specification: queued, in_progress, retrying,
completed, failed). -/
inductive SyncStatus
  | queued
  | inProgress
  | retrying
  | completed
  | failed
deriving DecidableEq, Repr

/-- One sync job, as built by SyncQueueDatabase.addJob. Discord metadata
fields that no queue operation reads (robloxUsername, discordUserId,
discordRoleId, reason, applicationId) are omitted. -/
structure SyncJob where
  id : Nat
  serverId : String
  robloxUserId : String
  groupId : String
  newRank : Int
  priority : Int
  status : SyncStatus
  attempts : Nat
  maxAttempts : Nat
  lastAttemptAt : Option Nat
  nextRetryAt : Option Nat
  errors : List String
  lastError : Option String
  createdAt : Nat
  updatedAt : Nat
  completedAt : Option Nat
deriving DecidableEq, Repr

/-- The caller-supplied jobData argument of addJob (fields the queue logic
reads). priority and maxAttempts are optional; JS applies the defaults with
the zero-falsy operator. -/
structure JobInput where
  serverId : String
  robloxUserId : String
  groupId : String
  newRank : Int
  priority : Option Int
  maxAttempts : Option Nat
deriving DecidableEq, Repr

/-- The job record literal built inside addJob. In JS, jobData.priority or 0
yields 0 when the field is absent (and a supplied 0 also yields 0, which
getD matches), while jobData.maxAttempts or 3 yields 3 both when the field
is absent and when a 0 is supplied, because 0 is falsy. -/
def mkJob (now id : Nat) (d : JobInput) : SyncJob :=
  { id := id
    serverId := d.serverId
    robloxUserId := d.robloxUserId
    groupId := d.groupId
    newRank := d.newRank
    priority := d.priority.getD 0
    status := .queued
    attempts := 0
    maxAttempts := match d.maxAttempts with
      | none => 3
      | some m => if m = 0 then 3 else m
    lastAttemptAt := none
    nextRetryAt := none
    errors := []
    lastError := none
    createdAt := now
    updatedAt := now
    completedAt := none }

/-- SyncQueueDatabase.addJob: push the new job record onto the queue. -/
def addJob (now id : Nat) (d : JobInput) (queue : List SyncJob) : List SyncJob :=
  queue ++ [mkJob now id d]

/-- SyncQueueDatabase.updateJob restricted to a per-record transform: the
entry whose id matches is replaced by f applied to it (updateJob merges the
updates object and stamps updatedAt; each concrete transform below includes
that stamp). -/
def updateJobIn (queue : List SyncJob) (id : Nat) (f : SyncJob → SyncJob) : List SyncJob :=
  queue.map fun j => if j.id = id then f j else j

/-- Record transform of SyncQueueDatabase.markInProgress. -/
def markInProgressJob (now : Nat) (j : SyncJob) : SyncJob :=
  { j with status := .inProgress, lastAttemptAt := some now, updatedAt := now }

/-- Record transform of SyncQueueDatabase.markCompleted. -/
def markCompletedJob (now : Nat) (j : SyncJob) : SyncJob :=
  { j with status := .completed, completedAt := some now, updatedAt := now }

/-- The backoff schedule of markFailed: delayMinutes =
min(5 * 2 ^ (attempts - 1), 30). -/
def backoffDelayMinutes (attempts : Nat) : Nat :=
  min (5 * 2 ^ (attempts - 1)) 30

/-- Record transform of SyncQueueDatabase.markFailed: increment attempts,
append the error; if retry is requested and the incremented count is still
below maxAttempts, schedule a retry with exponential backoff, otherwise mark
the job failed with completedAt (note: the failed branch does not clear a
stale nextRetryAt). -/
def markFailedJob (now : Nat) (errorMessage : String) (retry : Bool) (j : SyncJob) : SyncJob :=
  let attempts := j.attempts + 1
  let errors := j.errors ++ [errorMessage]
  if retry ∧ attempts < j.maxAttempts then
    { j with
      status := .retrying
      attempts := attempts
      errors := errors
      lastError := some errorMessage
      nextRetryAt := some (now + backoffDelayMinutes attempts * 60 * 1000)
      updatedAt := now }
  else
    { j with
      status := .failed
      attempts := attempts
      errors := errors
      lastError := some errorMessage
      completedAt := some now
      updatedAt := now }

/-- Queue-level markInProgress. -/
def markInProgress (now : Nat) (queue : List SyncJob) (jobId : Nat) : List SyncJob :=
  updateJobIn queue jobId (markInProgressJob now)

/-- Queue-level markCompleted. -/
def markCompleted (now : Nat) (queue : List SyncJob) (jobId : Nat) : List SyncJob :=
  updateJobIn queue jobId (markCompletedJob now)

/-- Queue-level markFailed. -/
def markFailed (now : Nat) (queue : List SyncJob) (jobId : Nat)
    (errorMessage : String) (retry : Bool) : List SyncJob :=
  updateJobIn queue jobId (markFailedJob now errorMessage retry)

/-- The pending filter of getPendingJobs: status queued, or status retrying
with a nextRetryAt that is due. -/
def isReady (now : Nat) (j : SyncJob) : Bool :=
  j.status == .queued ||
    (j.status == .retrying &&
      match j.nextRetryAt with
      | some t => decide (t ≤ now)
      | none => false)

/-- The sort order of getPendingJobs: priority descending, ties broken by
createdAt ascending (the JS comparator returns b.priority - a.priority, and
on equal priorities a.createdAt - b.createdAt). -/
def jobLE (a b : SyncJob) : Prop :=
  b.priority < a.priority ∨ (a.priority = b.priority ∧ a.createdAt ≤ b.createdAt)

instance : DecidableRel jobLE := fun a b => by unfold jobLE; infer_instance

instance : IsTotal SyncJob jobLE :=
  ⟨fun a b => by
    rcases lt_trichotomy a.priority b.priority with h | h | h
    · exact Or.inr (Or.inl h)
    · rcases Nat.le_total a.createdAt b.createdAt with hc | hc
      · exact Or.inl (Or.inr ⟨h, hc⟩)
      · exact Or.inr (Or.inr ⟨h.symm, hc⟩)
    · exact Or.inl (Or.inl h)⟩

instance : IsTrans SyncJob jobLE :=
  ⟨fun a b c hab hbc => by
    rcases hab with h1 | ⟨h1, h1c⟩ <;> rcases hbc with h2 | ⟨h2, h2c⟩
    · exact Or.inl (h2.trans h1)
    · exact Or.inl (h2 ▸ h1)
    · exact Or.inl (h1 ▸ h2)
    · exact Or.inr ⟨h1.trans h2, h1c.trans h2c⟩⟩

/-- SyncQueueDatabase.getPendingJobs: filter the pending jobs, sort them
with the priority-then-age comparator, and truncate to the limit. The JS
Array.sort is stable and the comparator is a total preorder, so its result
is the stable sort modelled here by insertionSort. -/
def getPendingJobs (now limit : Nat) (queue : List SyncJob) : List SyncJob :=
  ((queue.filter (isReady now)).insertionSort jobLE).take limit

/-- A job counts as pending for hasPendingSync when its status is queued,
in_progress or retrying (the non-terminal statuses). -/
def nonTerminal (j : SyncJob) : Bool :=
  j.status == .queued || j.status == .inProgress || j.status == .retrying

/-- SyncQueueDatabase.getUserJobs: the jobs of one server and Roblox user
(the newest-first sorting of getServerJobs does not matter to any property
below, so the plain filter is kept). -/
def getUserJobs (serverId robloxUserId : String) (queue : List SyncJob) : List SyncJob :=
  queue.filter fun j => j.serverId == serverId && j.robloxUserId == robloxUserId

/-- SyncQueueDatabase.hasPendingSync: some job of the pair is non-terminal. -/
def hasPendingSync (serverId robloxUserId : String) (queue : List SyncJob) : Bool :=
  (getUserJobs serverId robloxUserId queue).any nonTerminal

/-- SyncQueueDatabase.retryFailedJobs: reset every failed job (of one server
when a serverId is given, of all servers otherwise) to queued with attempts
0 and no nextRetryAt. -/
def retryFailedJobs (now : Nat) (serverId : Option String) (queue : List SyncJob) :
    List SyncJob :=
  queue.map fun j =>
    if j.status = .failed ∧ (serverId = none ∨ serverId = some j.serverId) then
      { j with status := .queued, attempts := 0, nextRetryAt := none, updatedAt := now }
    else j

/-- SyncQueueDatabase.cancelUserJobs: drop the queued and retrying jobs of
the pair. -/
def cancelUserJobs (serverId robloxUserId : String) (queue : List SyncJob) : List SyncJob :=
  queue.filter fun j =>
    !(j.serverId == serverId && j.robloxUserId == robloxUserId &&
      (j.status == .queued || j.status == .retrying))

/-- SyncQueueDatabase.cleanCompletedJobs: drop completed jobs whose
completedAt is before the cutoff (a null completedAt coerces to epoch 0 in
the JS Date comparison). -/
def cleanCompletedJobs (cutoff : Nat) (queue : List SyncJob) : List SyncJob :=
  queue.filter fun j =>
    !(j.status == .completed) || decide (cutoff ≤ j.completedAt.getD 0)

/-- SyncQueueDatabase.clearServerJobs: drop every job of the server. -/
def clearServerJobs (serverId : String) (queue : List SyncJob) : List SyncJob :=
  queue.filter fun j => !(j.serverId == serverId)

/-- Link status values (ROBLOX_LINK_STATUS from shared/constants). -/
inductive LinkStatus
  | pendingVerification
  | verifiedStatus
  | verificationFailed
deriving DecidableEq, Repr

/-- One Roblox link record, as built by RobloxLinksDatabase.createLink
(settings and role mappings that no claim touches are omitted; the
analytics counters kept are the ones processJob updates). -/
structure RobloxLink where
  serverId : String
  groupId : String
  placeIds : List String
  apiKeyHash : String
  apiKeyCreated : Nat
  apiKeyLastUsed : Option Nat
  status : LinkStatus
  verified : Bool
  verifiedAt : Option Nat
  totalSyncs : Nat
  failedSyncs : Nat
  lastSyncAt : Option Nat
  createdAt : Nat
  updatedAt : Nat
deriving DecidableEq, Repr

/-- The links store: a JS object keyed by server id, with insertion order,
modelled as an association list. -/
abbrev Links := List (String × RobloxLink)

/-- RobloxLinksDatabase.getLink: links[serverId] or null. -/
def getLink (links : Links) (serverId : String) : Option RobloxLink :=
  (List.find? (fun p => p.1 == serverId) links).map (·.2)

/-- JS object assignment links[serverId] = l: replace in place when the key
exists, append otherwise. -/
def setLink (links : Links) (serverId : String) (l : RobloxLink) : Links :=
  if List.any links (fun p => p.1 == serverId) then
    List.map (fun p => if p.1 = serverId then (serverId, l) else p) links
  else links ++ [(serverId, l)]

/-- RobloxLinksDatabase.createLink. The plaintext API key (generateApiKey:
a random 32-byte hex string embedded in a ks_roblox prefix) is modelled as
the argument apiKey, and hashApiKey (salted SHA-256 digest) as the abstract
argument hash. Returns the stored record together with the new store; the
source additionally hands the plaintext key back to the caller once. -/
def createLink (hash : String → String) (apiKey : String) (now : Nat)
    (links : Links) (serverId groupId : String) (placeIds : List String) :
    RobloxLink × Links :=
  let link : RobloxLink :=
    { serverId := serverId
      groupId := groupId
      placeIds := placeIds
      apiKeyHash := hash apiKey
      apiKeyCreated := now
      apiKeyLastUsed := none
      status := .pendingVerification
      verified := false
      verifiedAt := none
      totalSyncs := 0
      failedSyncs := 0
      lastSyncAt := none
      createdAt := now
      updatedAt := now }
  (link, setLink links serverId link)

/-- RobloxLinksDatabase.updateLink restricted to a per-record transform at
one key: the record stored under serverId is replaced by f applied to it
(each concrete transform below includes the updatedAt stamp of updateLink);
other keys are untouched, and a missing key leaves the store unchanged
(the source throws there). -/
def mapAtKey (links : Links) (serverId : String) (f : RobloxLink → RobloxLink) : Links :=
  List.map (fun p => if p.1 = serverId then (p.1, f p.2) else p) links

/-- RobloxLinksDatabase.updateApiKeyUsage: stamp apiKeyLastUsed (updateLink
also stamps updatedAt). -/
def updateApiKeyUsage (now : Nat) (links : Links) (serverId : String) : Links :=
  mapAtKey links serverId fun l =>
    { l with apiKeyLastUsed := some now, updatedAt := now }

/-- RobloxLinksDatabase.validateApiKey: hash the presented key, scan the
store for a record with that hash, and on a match stamp its apiKeyLastUsed
before returning the (pre-stamp) record. A miss leaves the store alone. -/
def validateApiKey (hash : String → String) (now : Nat) (links : Links)
    (apiKey : String) : Option RobloxLink × Links :=
  match List.find? (fun p => p.2.apiKeyHash == hash apiKey) links with
  | some p => (some p.2, updateApiKeyUsage now links p.1)
  | none => (none, links)

/-- RobloxLinksDatabase.regenerateApiKey: store the hash of the freshly
generated key (argument newKey), reset apiKeyCreated and apiKeyLastUsed.
The source throws when the link is missing; here a missing key leaves the
store unchanged and the theorems hypothesise presence. -/
def regenerateApiKey (hash : String → String) (newKey : String) (now : Nat)
    (links : Links) (serverId : String) : Links :=
  mapAtKey links serverId fun l =>
    { l with
      apiKeyHash := hash newKey
      apiKeyCreated := now
      apiKeyLastUsed := none
      updatedAt := now }

/-- RobloxLinksDatabase.updateLastSync: stamp lastSyncAt, bump totalSyncs,
and bump failedSyncs on failure. -/
def updateLastSync (now : Nat) (links : Links) (serverId : String)
    (success : Bool) : Links :=
  mapAtKey links serverId fun l =>
    { l with
      lastSyncAt := some now
      totalSyncs := l.totalSyncs + 1
      failedSyncs := l.failedSyncs + (if success then 0 else 1)
      updatedAt := now }

/-- RobloxLinksDatabase.incrementAnalytics for the totalSyncs counter (the
call processJob makes after a successful rank write). -/
def incTotalSyncs (now : Nat) (links : Links) (serverId : String) : Links :=
  mapAtKey links serverId fun l =>
    { l with totalSyncs := l.totalSyncs + 1, updatedAt := now }

/-- JS String.prototype.startsWith, over the character sequence (equivalent
to the UTF-16 view for the ASCII header prefixes involved). -/
def strStartsWith (s pre : String) : Bool :=
  decide (pre.data <+: s.data)

/-- JS String.prototype.substring(n): drop the first n characters. -/
def strDrop (s : String) (n : Nat) : String :=
  String.mk (s.data.drop n)

/-- validateTimestamp from shared/utils/validator: the absolute difference
between server unix seconds and the claimed timestamp is at most the drift
window. -/
def validateTimestamp (nowSec ts : Int) (maxDrift : Nat) : Bool :=
  decide ((nowSec - ts).natAbs ≤ maxDrift)

/-- The request fields authMiddleware reads: the Authorization header, the
timestamp from body or query, the optional signature header, the optional
place id from body or query. -/
structure AuthRequest where
  authHeader : Option String
  timestamp : Option Int
  signature : Option String
  placeId : Option String
deriving DecidableEq, Repr

/-- The typed rejections and the success outcome of authMiddleware. -/
inductive AuthOutcome
  | noApiKey
  | invalidApiKeyFormat
  | invalidApiKey
  | linkNotVerified
  | noTimestamp
  | invalidTimestamp
  | invalidSignature
  | unauthorizedPlace
  | authorized (serverId : String)
deriving DecidableEq, Repr

/-- authMiddleware from src/Roblox/api/auth.js. The HMAC recomputation of
encryption.verifyRequestSignature over method, path, body and timestamp is
modelled by the abstract predicate verifySig applied to the presented
signature and the api key. Returns the outcome and the (possibly stamped)
links store. -/
def authMiddleware (hash : String → String) (verifySig : String → String → Bool)
    (now : Nat) (nowSec : Int) (links : Links) (req : AuthRequest) :
    AuthOutcome × Links :=
  match req.authHeader with
  | none => (.noApiKey, links)
  | some h =>
    if !(strStartsWith h "Bearer ") then (.noApiKey, links)
    else
      let apiKey := strDrop h 7
      if apiKey.length < 32 then (.invalidApiKeyFormat, links)
      else
        match validateApiKey hash now links apiKey with
        | (none, links1) => (.invalidApiKey, links1)
        | (some link, links1) =>
          if !link.verified then (.linkNotVerified, links1)
          else
            match req.timestamp with
            | none => (.noTimestamp, links1)
            | some ts =>
              if !(validateTimestamp nowSec ts 300) then (.invalidTimestamp, links1)
              else
                let sigOk := match req.signature with
                  | none => true
                  | some s => verifySig s apiKey
                if !sigOk then (.invalidSignature, links1)
                else
                  match req.placeId with
                  | none => (.authorized link.serverId, links1)
                  | some pid =>
                    if !(List.contains link.placeIds pid) then
                      (.unauthorizedPlace, links1)
                    else (.authorized link.serverId, links1)

/-- The token-extraction prefix of authMiddleware: the well-formed bearer
key, when the header is present, carries the Bearer prefix, and the
remainder is at least 32 characters long. -/
def extractApiKey (req : AuthRequest) : Option String :=
  match req.authHeader with
  | none => none
  | some h =>
    if !(strStartsWith h "Bearer ") then none
    else if (strDrop h 7).length < 32 then none
    else some (strDrop h 7)

/-- One pending group-ownership verification challenge, as built by
RobloxVerification.startVerification (expiresAt is createdAt plus ten
minutes there; maxAttempts is 5). The state below is the slice of the
verifications object at one server id. -/
structure Verification where
  serverId : String
  groupId : String
  code : String
  expiresAt : Nat
  verified : Bool
  attempts : Nat
  maxAttempts : Nat
deriving DecidableEq, Repr

/-- RobloxVerification.startVerification: the stored challenge record. The
random alphanumeric code (encryption.generateVerificationCode, 8 uppercase
characters) is modelled as the argument codeRand; the expiry is ten minutes
after creation and maxAttempts is 5. -/
def startVerification (codeRand : String) (now : Nat)
    (serverId groupId : String) : Verification :=
  { serverId := serverId
    groupId := groupId
    code := "KS_VERIFY_" ++ codeRand
    expiresAt := now + 10 * 60 * 1000
    verified := false
    attempts := 0
    maxAttempts := 5 }

/-- The outcomes of RobloxVerification.checkVerification. -/
inductive CheckResult
  | noVerification
  | expired
  | maxAttemptsReached
  | verifiedOk
  | codeNotFound (attemptsRemaining : Nat)
deriving DecidableEq, Repr

/-- JS String.prototype.includes: substring containment. -/
def strIncludes (hay needle : String) : Bool :=
  decide (needle.toList <:+: hay.toList)

/-- RobloxVerification.checkVerification on the slice of the store at one
server id (none models a missing entry). Order of the checks is the order
of the source: missing challenge, then expiry (which cancels), then the
attempts cap (which cancels), then increment attempts, fetch the live group
description (argument getDesc) and test substring containment of the code. -/
def checkVerification (getDesc : String → String) (now : Nat)
    (st : Option Verification) : CheckResult × Option Verification :=
  match st with
  | none => (.noVerification, none)
  | some v =>
    if v.expiresAt < now then (.expired, none)
    else if v.maxAttempts ≤ v.attempts then (.maxAttemptsReached, none)
    else
      let v1 := { v with attempts := v.attempts + 1 }
      if strIncludes (getDesc v.groupId) v.code then
        (.verifiedOk, some { v1 with verified := true })
      else
        (.codeNotFound (v.maxAttempts - v1.attempts), some v1)

/-- Iterated state of repeated checkVerification calls: the challenge state
after n check calls. -/
def checkTimes (getDesc : String → String) (now : Nat) :
    Nat → Option Verification → Option Verification
  | 0, st => st
  | n + 1, st => checkTimes getDesc now n (checkVerification getDesc now st).2

/-- The Roblox API reads processJob performs, modelled as pure accessors:
the role catalog of a group and the role of a user in a group (none when
the user is not a member). -/
structure GroupRole where
  id : Nat
  name : String
  rank : Int
deriving DecidableEq, Repr

structure RobloxEnv where
  getGroupRoles : String → List GroupRole
  getUserRoleInGroup : String → String → Option GroupRole

/-- The four domain errors processJob throws before reaching the mutating
call. -/
inductive JobError
  | linkNotFound
  | groupNotVerified
  | roleNotFound
  | userNotInGroup
deriving DecidableEq, Repr

/-- The thrown error messages of processJob. -/
def jobErrorMessage (job : SyncJob) : JobError → String
  | .linkNotFound => "Roblox link not found for server"
  | .groupNotVerified => "Roblox group not verified"
  | .roleNotFound => "Role with rank " ++ toString job.newRank ++ " not found in group"
  | .userNotInGroup => "User is not in the Roblox group"

/-- The decision core of RoleSyncManager.processJob, in source order: fetch
the link (throw when missing), require verification, resolve the requested
rank in the group role catalog (throw when absent), fetch the current role
of the user (throw when not a member); then either the idempotence
short-circuit (ok none: current rank already equals the target) or the
mutating set-rank call with the resolved role id (ok some call). -/
def syncDecision (env : RobloxEnv) (links : Links) (job : SyncJob) :
    Except JobError (Option (String × String × Nat)) :=
  match getLink links job.serverId with
  | none => .error .linkNotFound
  | some link =>
    if !link.verified then .error .groupNotVerified
    else
      match List.find? (fun r => r.rank == job.newRank) (env.getGroupRoles link.groupId) with
      | none => .error .roleNotFound
      | some targetRole =>
        match env.getUserRoleInGroup job.robloxUserId link.groupId with
        | none => .error .userNotInGroup
        | some userRole =>
          if userRole.rank == job.newRank then .ok none
          else .ok (some (link.groupId, job.robloxUserId, targetRole.id))

/-- The observable result of one processJob run: the queue, the links store,
the list of mutating Directory Service set-rank calls performed (group id,
user id, role id), the returned success flag, and the domain error, if
any. -/
structure ProcessOutcome where
  queue : List SyncJob
  links : Links
  setRankCalls : List (String × String × Nat)
  success : Bool
  jobError : Option JobError
deriving DecidableEq, Repr

/-- RoleSyncManager.processJob: mark the job in progress, run the decision
core; a thrown error is caught and funnelled to markFailed with retry true
followed by updateLastSync failure accounting (when the link is missing,
that updateLastSync throws after markFailed has been applied and changes
nothing, which the store map models as a no-op); the success paths mark the
job completed, and only the non-idempotent path performs the set-rank call
and the extra totalSyncs increment. -/
def processJob (env : RobloxEnv) (now : Nat) (links : Links)
    (queue : List SyncJob) (job : SyncJob) : ProcessOutcome :=
  let q1 := markInProgress now queue job.id
  match syncDecision env links job with
  | .error e =>
    { queue := markFailed now q1 job.id (jobErrorMessage job e) true
      links := updateLastSync now links job.serverId false
      setRankCalls := []
      success := false
      jobError := some e }
  | .ok none =>
    { queue := markCompleted now q1 job.id
      links := updateLastSync now links job.serverId true
      setRankCalls := []
      success := true
      jobError := none }
  | .ok (some call) =>
    { queue := markCompleted now q1 job.id
      links := incTotalSyncs now (updateLastSync now links job.serverId true) job.serverId
      setRankCalls := [call]
      success := true
      jobError := none }

/-- The syncData argument of RoleSyncManager.queueSync (fields the queue
logic reads; maxAttempts is never passed, so addJob applies its default). -/
structure SyncData where
  serverId : String
  robloxUserId : String
  newRank : Int
  priority : Option Int
deriving DecidableEq, Repr

/-- The outcomes of RoleSyncManager.queueSync. -/
inductive QueueSyncResult
  | noLink
  | notVerified
  | duplicatePending
  | queuedOk (jobId : Nat)
deriving DecidableEq, Repr

/-- RoleSyncManager.queueSync: require an existing, verified link, reject
when the pair already has a pending sync, otherwise add the job (groupId is
taken from the link; maxAttempts is left to the addJob default). -/
def queueSync (now id : Nat) (links : Links) (queue : List SyncJob)
    (d : SyncData) : QueueSyncResult × List SyncJob :=
  match getLink links d.serverId with
  | none => (.noLink, queue)
  | some link =>
    if !link.verified then (.notVerified, queue)
    else if hasPendingSync d.serverId d.robloxUserId queue then
      (.duplicatePending, queue)
    else
      (.queuedOk id,
       addJob now id
         { serverId := d.serverId
           robloxUserId := d.robloxUserId
           groupId := link.groupId
           newRank := d.newRank
           priority := d.priority
           maxAttempts := none } queue)

/-- The operations the repository performs on the sync queue store: enqueue
through queueSync, the three worker marks issued by processJob on jobs it
dequeued, and the administrative operations reachable from the sync routes
and the cleanup timer. -/
inductive QueueOp
  | enqueue (now id : Nat) (d : JobInput)
  | workerStart (now id : Nat)
  | workerComplete (now id : Nat)
  | workerFail (now id : Nat) (msg : String) (retry : Bool)
  | retryFailed (now : Nat) (serverId : Option String)
  | cancelUser (serverId robloxUserId : String)
  | cleanCompleted (cutoff : Nat)
  | clearServer (serverId : String)
deriving DecidableEq, Repr

/-- Whether the operation is the explicit operator re-queue
(retryFailedJobs, behind the retry-failed route). -/
def QueueOp.isRetryOp : QueueOp → Bool
  | .retryFailed _ _ => true
  | _ => false

/-- One step of the queue store under the operations of the system. The
side conditions record how each operation is actually invoked: queueSync
only adds a job after hasPendingSync came back false; processJob marks a
job in progress only after dequeuing it from getPendingJobs (so every store
entry with its id was ready), and marks completed or failed only jobs it
had put in progress. -/
inductive QStep : QueueOp → List SyncJob → List SyncJob → Prop
  | enqueue (now id : Nat) (d : JobInput) (q : List SyncJob)
      (hpend : hasPendingSync d.serverId d.robloxUserId q = false) :
      QStep (.enqueue now id d) q (addJob now id d q)
  | workerStart (now id : Nat) (q : List SyncJob)
      (hready : ∀ j ∈ q, j.id = id → isReady now j = true) :
      QStep (.workerStart now id) q (markInProgress now q id)
  | workerComplete (now id : Nat) (q : List SyncJob)
      (hip : ∀ j ∈ q, j.id = id → j.status = .inProgress) :
      QStep (.workerComplete now id) q (markCompleted now q id)
  | workerFail (now id : Nat) (msg : String) (retry : Bool) (q : List SyncJob)
      (hip : ∀ j ∈ q, j.id = id → j.status = .inProgress) :
      QStep (.workerFail now id msg retry) q (markFailed now q id msg retry)
  | retryFailed (now : Nat) (sid : Option String) (q : List SyncJob) :
      QStep (.retryFailed now sid) q (retryFailedJobs now sid q)
  | cancelUser (sid uid : String) (q : List SyncJob) :
      QStep (.cancelUser sid uid) q (cancelUserJobs sid uid q)
  | cleanCompleted (cutoff : Nat) (q : List SyncJob) :
      QStep (.cleanCompleted cutoff) q (cleanCompletedJobs cutoff q)
  | clearServer (sid : String) (q : List SyncJob) :
      QStep (.clearServer sid) q (clearServerJobs sid q)

/-- Queue states reachable from the empty store through system steps. -/
inductive QReach : List SyncJob → Prop
  | init : QReach []
  | step (op : QueueOp) (q q' : List SyncJob) :
      QReach q → QStep op q q' → QReach q'

/-- The per-job attempts invariant: maxAttempts is at least 1 (the addJob
default guarantees it), attempts never exceeds maxAttempts, and a job that
is not terminal still has an attempt left. -/
def GoodJob (j : SyncJob) : Prop :=
  1 ≤ j.maxAttempts ∧ j.attempts ≤ j.maxAttempts ∧
    (j.status ≠ .completed ∧ j.status ≠ .failed → j.attempts < j.maxAttempts)

/-- The attempts invariant over a queue state. -/
def AttemptsInv (q : List SyncJob) : Prop :=
  ∀ j ∈ q, GoodJob j

/-- Membership test of one (tenant, identity) pair in non-terminal status. -/
def pendingPred (serverId robloxUserId : String) (j : SyncJob) : Bool :=
  j.serverId == serverId && j.robloxUserId == robloxUserId && nonTerminal j

/-- At most one non-terminal job per (tenant, identity) pair. -/
def PairInv (q : List SyncJob) : Prop :=
  ∀ serverId robloxUserId : String,
    q.countP (pendingPred serverId robloxUserId) ≤ 1

/-- Concrete sync environment where the tenant link is absent, used to
exercise the LINK_NOT_FOUND path of processJob. -/
def emptyEnv : RobloxEnv :=
  { getGroupRoles := fun _ => []
    getUserRoleInGroup := fun _ _ => none }

/-- Concrete queue entry: a freshly enqueued job of tenant s for identity u
with the default three attempts. -/
def sampleInput : JobInput :=
  { serverId := "s"
    robloxUserId := "u"
    groupId := "g"
    newRank := 3
    priority := none
    maxAttempts := none }

def sampleJob : SyncJob :=
  mkJob 0 1 sampleInput

/-- The queue states of a concrete run: tenant s enqueues a job for
identity u, the worker exhausts its three attempts so the job goes
terminal, a second job for the same pair is accepted, and the operator
retry-failed reset then requeues the first job next to it. -/
def traceQ1 : List SyncJob := addJob 0 1 sampleInput []

def traceQ2 : List SyncJob := markInProgress 0 traceQ1 1

def traceQ3 : List SyncJob := markFailed 0 traceQ2 1 "timeout" true

def traceQ4 : List SyncJob := markInProgress 300000 traceQ3 1

def traceQ5 : List SyncJob := markFailed 300000 traceQ4 1 "timeout" true

def traceQ6 : List SyncJob := markInProgress 900000 traceQ5 1

def traceQ7 : List SyncJob := markFailed 900000 traceQ6 1 "timeout" true

def traceQ8 : List SyncJob := addJob 900000 2 sampleInput traceQ7

def traceQ9 : List SyncJob := retryFailedJobs 900000 none traceQ8

/-- Concrete fixtures for the credential and auth gateway claims: an
identity-like hash stands in for the salted digest, and a link whose
verification is still pending. -/
def sampleHash : String → String := fun s => s

def sampleKey : String := "0123456789abcdef0123456789abcdef"

def sampleLink : RobloxLink :=
  { serverId := "s"
    groupId := "g"
    placeIds := []
    apiKeyHash := sampleHash sampleKey
    apiKeyCreated := 0
    apiKeyLastUsed := none
    status := .pendingVerification
    verified := false
    verifiedAt := none
    totalSyncs := 0
    failedSyncs := 0
    lastSyncAt := none
    createdAt := 0
    updatedAt := 0 }

def sampleRequest : AuthRequest :=
  { authHeader := some ("Bearer " ++ sampleKey)
    timestamp := none
    signature := none
    placeId := none }

/-- Concrete verification challenge fixture. -/
def sampleChallenge : Verification :=
  startVerification "AB12CD34" 0 "s" "g"

def sampleDesc : String → String := fun _ => "a description without the code"

/-- A verified variant of the sample link, and a directory environment in
which identity u already holds the requested rank. -/
def verifiedLink : RobloxLink :=
  { sampleLink with verified := true, status := .verifiedStatus }

def roleMember : GroupRole :=
  { id := 77, name := "Member", rank := 3 }

def sampleEnv : RobloxEnv :=
  { getGroupRoles := fun _ => [roleMember]
    getUserRoleInGroup := fun _ _ => some roleMember }

/-- Jobs of the dequeue-ordering example: A has priority 0 and creation
time 1, B has priority 1 and creation time 2, C has priority 0 and creation
time 0. -/
def jobA : SyncJob := { sampleJob with id := 11, priority := 0, createdAt := 1 }

def jobB : SyncJob := { sampleJob with id := 12, priority := 1, createdAt := 2 }

def jobC : SyncJob := { sampleJob with id := 13, priority := 0, createdAt := 0 }

/-- A job whose next failure reaches the attempts cap. -/
def capJob : SyncJob := { sampleJob with attempts := 2 }

def sampleSyncData : SyncData :=
  { serverId := "s", robloxUserId := "u", newRank := 2, priority := none }

def sampleKey2 : String := "fedcba9876543210fedcba9876543210"

/-
Helper lemmas.
-/

theorem mem_updateJobIn {q : List SyncJob} {id : Nat} {f : SyncJob → SyncJob}
    {j : SyncJob} (h : j ∈ updateJobIn q id f) :
    ∃ j0 ∈ q, j = if j0.id = id then f j0 else j0 := by
  obtain ⟨j0, hj0, heq⟩ := List.mem_map.mp h
  exact ⟨j0, hj0, heq.symm⟩

theorem isReady_status {now : Nat} {j : SyncJob} (h : isReady now j = true) :
    j.status = .queued ∨ j.status = .retrying := by
  unfold isReady at h
  by_cases hq : j.status = SyncStatus.queued
  · exact Or.inl hq
  · right
    simp only [Bool.or_eq_true, beq_iff_eq, hq, false_or, Bool.and_eq_true] at h
    exact h.1

theorem countP_le_of_map {l : List SyncJob} {g : SyncJob → SyncJob}
    {p : SyncJob → Bool} (h : ∀ a ∈ l, p (g a) = true → p a = true) :
    (l.map g).countP p ≤ l.countP p := by
  induction l with
  | nil => simp
  | cons a l ih =>
    simp only [List.map_cons, List.countP_cons]
    have hl := ih fun b hb => h b (List.mem_cons_of_mem _ hb)
    by_cases hp : p (g a) = true
    · have hpa := h a (List.mem_cons_self a l) hp
      rw [if_pos hp, if_pos hpa]
      omega
    · rw [if_neg hp]
      split <;> omega

theorem countP_eq_of_map {l : List SyncJob} {g : SyncJob → SyncJob}
    {p : SyncJob → Bool} (h : ∀ a ∈ l, p (g a) = p a) :
    (l.map g).countP p = l.countP p := by
  induction l with
  | nil => simp
  | cons a l ih =>
    have hl := ih fun b hb => h b (List.mem_cons_of_mem _ hb)
    simp only [List.map_cons, List.countP_cons, hl, h a (List.mem_cons_self a l)]

theorem countP_filter_le (l : List SyncJob) (p f : SyncJob → Bool) :
    (l.filter f).countP p ≤ l.countP p := by
  rw [List.countP_filter]
  exact List.countP_mono_left fun a _ hpf => (Bool.and_eq_true _ _).mp hpf |>.1

theorem hasPendingSync_eq_any (serverId robloxUserId : String)
    (q : List SyncJob) :
    hasPendingSync serverId robloxUserId q =
      q.any (pendingPred serverId robloxUserId) := by
  unfold hasPendingSync getUserJobs pendingPred
  rw [List.any_filter]

theorem countP_eq_zero_of_no_pending {serverId robloxUserId : String}
    {q : List SyncJob}
    (h : hasPendingSync serverId robloxUserId q = false) :
    q.countP (pendingPred serverId robloxUserId) = 0 := by
  rw [hasPendingSync_eq_any] at h
  exact List.countP_eq_zero.mpr (List.any_eq_false.mp h)

/-- Claim C10 (confirmed): every job created by the enqueue operation
starts with status queued, attempts 0, an empty error list, and null
nextRetryAt and completedAt; when the caller supplies no value, maxAttempts
defaults to 3 and priority defaults to 0. -/
theorem addJob_initial_state (now id : Nat) (d : JobInput) :
    (mkJob now id d).status = .queued ∧
    (mkJob now id d).attempts = 0 ∧
    (mkJob now id d).errors = [] ∧
    (mkJob now id d).nextRetryAt = none ∧
    (mkJob now id d).completedAt = none ∧
    (d.maxAttempts = none → (mkJob now id d).maxAttempts = 3) ∧
    (d.priority = none → (mkJob now id d).priority = 0) ∧
    addJob now id d [] = [mkJob now id d] := by
  refine ⟨rfl, rfl, rfl, rfl, rfl, ?_, ?_, rfl⟩
  · intro h
    simp [mkJob, h]
  · intro h
    simp [mkJob, h]

/-- Witness for C10 at a concrete input with both optional fields absent. -/
theorem addJob_initial_state_witness :
    (mkJob 0 1 sampleInput).maxAttempts = 3 ∧ (mkJob 0 1 sampleInput).priority = 0 :=
  ⟨(addJob_initial_state 0 1 sampleInput).2.2.2.2.2.1 rfl,
   (addJob_initial_state 0 1 sampleInput).2.2.2.2.2.2.1 rfl⟩

/-- Claim C5 (confirmed): a markFailed call that schedules a retry uses
delayMinutes = min(5 * 2 ^ (attempts - 1), 30), which takes the values 5,
10, 20, 30, 30 for attempts 1 through 5, is monotone in attempts, never
exceeds the 30 minute cap, and the job is set to retrying with nextRetryAt
equal to now plus the delay. -/
theorem markFailed_backoff_schedule :
    (backoffDelayMinutes 1 = 5 ∧ backoffDelayMinutes 2 = 10 ∧
     backoffDelayMinutes 3 = 20 ∧ backoffDelayMinutes 4 = 30 ∧
     backoffDelayMinutes 5 = 30) ∧
    (∀ a b : Nat, a ≤ b → backoffDelayMinutes a ≤ backoffDelayMinutes b) ∧
    (∀ a : Nat, backoffDelayMinutes a ≤ 30) ∧
    (∀ (now : Nat) (msg : String) (j : SyncJob),
      j.attempts + 1 < j.maxAttempts →
      markFailedJob now msg true j =
        { j with
          status := .retrying
          attempts := j.attempts + 1
          errors := j.errors ++ [msg]
          lastError := some msg
          nextRetryAt := some (now + backoffDelayMinutes (j.attempts + 1) * 60 * 1000)
          updatedAt := now }) := by
  refine ⟨by decide, ?_, ?_, ?_⟩
  · intro a b hab
    exact min_le_min
      (Nat.mul_le_mul_left _ (Nat.pow_le_pow_right (by norm_num)
        (Nat.sub_le_sub_right hab 1))) le_rfl
  · intro a
    exact min_le_right _ _
  · intro now msg j h
    simp only [markFailedJob]
    rw [if_pos ⟨by trivial, h⟩]

/-- Witness for C5: monotonicity at 1 and 3 and the retry record at a
concrete job on its first failure. -/
theorem markFailed_backoff_schedule_witness :
    backoffDelayMinutes 1 ≤ backoffDelayMinutes 3 ∧
    (markFailedJob 7 "boom" true sampleJob).status = .retrying ∧
    (markFailedJob 7 "boom" true sampleJob).nextRetryAt = some (7 + 5 * 60 * 1000) := by
  have h := markFailed_backoff_schedule.2.2.2 7 "boom" sampleJob (by decide)
  refine ⟨markFailed_backoff_schedule.2.1 1 3 (by decide), ?_, ?_⟩ <;> (rw [h]; try decide)

/-- Claim C6 (confirmed): getPendingJobs returns exactly the jobs that are
queued or retrying-and-due (truncated to the limit), in priority-descending
then creation-ascending order; on jobs A(priority 0, created 1),
B(priority 1, created 2), C(priority 0, created 0) the order is B, C, A. -/
theorem getPendingJobs_spec :
    (∀ (now limit : Nat) (q : List SyncJob) (j : SyncJob),
      j ∈ getPendingJobs now limit q → j ∈ q ∧ isReady now j = true) ∧
    (∀ (now limit : Nat) (q : List SyncJob),
      (q.filter (isReady now)).length ≤ limit →
      (getPendingJobs now limit q).Perm (q.filter (isReady now))) ∧
    (∀ (now limit : Nat) (q : List SyncJob),
      (getPendingJobs now limit q).Sorted jobLE) ∧
    getPendingJobs 10 10 [jobA, jobB, jobC] = [jobB, jobC, jobA] := by
  refine ⟨?_, ?_, ?_, by decide⟩
  · intro now limit q j hj
    have hs : j ∈ (q.filter (isReady now)).insertionSort jobLE :=
      (List.take_sublist _ _).subset hj
    have hf : j ∈ q.filter (isReady now) :=
      (List.perm_insertionSort jobLE _).mem_iff.mp hs
    exact List.mem_filter.mp hf
  · intro now limit q hlen
    have hlen2 : ((q.filter (isReady now)).insertionSort jobLE).length ≤ limit := by
      rw [(List.perm_insertionSort jobLE _).length_eq]
      exact hlen
    unfold getPendingJobs
    rw [List.take_of_length_le hlen2]
    exact List.perm_insertionSort jobLE _
  · intro now limit q
    exact List.Pairwise.sublist (List.take_sublist _ _)
      (List.sorted_insertionSort jobLE (q.filter (isReady now)))

/-- Witness for C6: the permutation component at the concrete three-job
queue with a limit that does not truncate. -/
theorem getPendingJobs_spec_witness :
    (getPendingJobs 10 10 [jobA, jobB, jobC]).Perm
      ([jobA, jobB, jobC].filter (isReady 10)) :=
  getPendingJobs_spec.2.1 10 10 [jobA, jobB, jobC] (by decide)

/-- A failed check call on an unexpired challenge with attempts left:
the attempts counter is incremented and CODE_NOT_FOUND is returned with
the remaining attempt count. -/
theorem checkVerification_fail_step (getDesc : String → String) (now : Nat)
    (v : Verification) (hexp : ¬ v.expiresAt < now)
    (hatt : v.attempts < v.maxAttempts)
    (hcode : strIncludes (getDesc v.groupId) v.code = false) :
    checkVerification getDesc now (some v) =
      (CheckResult.codeNotFound (v.maxAttempts - (v.attempts + 1)),
       some { v with attempts := v.attempts + 1 }) := by
  simp only [checkVerification]
  rw [if_neg hexp, if_neg (Nat.not_le.mpr hatt), hcode]
  simp

/-- A check call on an unexpired challenge whose attempts have reached the
cap: MAX_ATTEMPTS is returned and the challenge is cancelled. -/
theorem checkVerification_cap_step (getDesc : String → String) (now : Nat)
    (v : Verification) (hexp : ¬ v.expiresAt < now)
    (hatt : v.maxAttempts ≤ v.attempts) :
    checkVerification getDesc now (some v) = (CheckResult.maxAttemptsReached, none) := by
  simp only [checkVerification]
  rw [if_neg hexp, if_pos hatt]

/-- Claim C2 counterexample: on a fresh challenge (maxAttempts 5) that has
not expired and whose code never appears in the description, the fifth
check call returns CODE_NOT_FOUND with zero attempts remaining, not
MAX_ATTEMPTS. -/
theorem checkVerification_fifth_call_not_max :
    (checkVerification sampleDesc 0 (checkTimes sampleDesc 0 4 (some sampleChallenge))).1 =
      CheckResult.codeNotFound 0 ∧
    (checkVerification sampleDesc 0 (checkTimes sampleDesc 0 4 (some sampleChallenge))).1 ≠
      CheckResult.maxAttemptsReached := by
  decide

/-- Claim C2 (corrected): on an unexpired challenge created by
startVerification (maxAttempts 5) whose code the description never
contains, the fifth consecutive failed check still returns CODE_NOT_FOUND
(with zero attempts remaining); MAX_ATTEMPTS is returned on the sixth
check, which also cancels the challenge so that a seventh check returns
NO_VERIFICATION; and expiry takes precedence: any expired challenge
returns EXPIRED, even when the attempts cap was reached. -/
theorem checkVerification_max_attempts (getDesc : String → String)
    (codeRand : String) (t0 now : Nat) (sid gid : String)
    (hexp : ¬ (startVerification codeRand t0 sid gid).expiresAt < now)
    (hcode : strIncludes (getDesc gid) (startVerification codeRand t0 sid gid).code
      = false) :
    (checkVerification getDesc now
        (checkTimes getDesc now 4 (some (startVerification codeRand t0 sid gid)))).1 =
      CheckResult.codeNotFound 0 ∧
    checkVerification getDesc now
        (checkTimes getDesc now 5 (some (startVerification codeRand t0 sid gid))) =
      (CheckResult.maxAttemptsReached, none) ∧
    (checkVerification getDesc now
        (checkTimes getDesc now 6 (some (startVerification codeRand t0 sid gid)))).1 =
      CheckResult.noVerification ∧
    (∀ (w : Verification) (m : Nat), w.expiresAt < m →
      checkVerification getDesc m (some w) = (CheckResult.expired, none)) := by
  set v0 := startVerification codeRand t0 sid gid
  have hstate : ∀ k : Nat, k < 5 →
      checkVerification getDesc now (some { v0 with attempts := k }) =
        (CheckResult.codeNotFound (5 - (k + 1)), some { v0 with attempts := k + 1 }) := by
    intro k hk
    exact checkVerification_fail_step getDesc now { v0 with attempts := k } hexp hk hcode
  have h0 : some v0 = some { v0 with attempts := 0 } := rfl
  have t1 : ∀ n : Nat, ∀ k : Nat, k < 5 →
      checkTimes getDesc now (n + 1) (some { v0 with attempts := k }) =
        checkTimes getDesc now n (some { v0 with attempts := k + 1 }) := by
    intro n k hk
    show checkTimes getDesc now n
        (checkVerification getDesc now (some { v0 with attempts := k })).2 = _
    rw [hstate k hk]
  have c4 : checkTimes getDesc now 4 (some v0) = some { v0 with attempts := 4 } := by
    rw [h0, t1 3 0 (by omega), t1 2 1 (by omega), t1 1 2 (by omega), t1 0 3 (by omega)]
    rfl
  have c5 : checkTimes getDesc now 5 (some v0) = some { v0 with attempts := 5 } := by
    rw [h0, t1 4 0 (by omega), t1 3 1 (by omega), t1 2 2 (by omega), t1 1 3 (by omega),
      t1 0 4 (by omega)]
    rfl
  have hcap : checkVerification getDesc now (some { v0 with attempts := 5 }) =
      (CheckResult.maxAttemptsReached, none) :=
    checkVerification_cap_step getDesc now { v0 with attempts := 5 } hexp (Nat.le_refl 5)
  have c6 : checkTimes getDesc now 6 (some v0) = none := by
    rw [h0, t1 5 0 (by omega), t1 4 1 (by omega), t1 3 2 (by omega), t1 2 3 (by omega),
      t1 1 4 (by omega)]
    show (checkVerification getDesc now (some { v0 with attempts := 5 })).2 = none
    rw [hcap]
  refine ⟨?_, ?_, ?_, ?_⟩
  · rw [c4, hstate 4 (by omega)]
  · rw [c5, hcap]
  · rw [c6]
    rfl
  · intro w m hw
    simp only [checkVerification]
    rw [if_pos hw]

/-- Witness for the corrected C2 at the concrete fixture challenge. -/
theorem checkVerification_max_attempts_witness :
    checkVerification sampleDesc 0
        (checkTimes sampleDesc 0 5 (some (startVerification "AB12CD34" 0 "s" "g"))) =
      (CheckResult.maxAttemptsReached, none) :=
  (checkVerification_max_attempts sampleDesc "AB12CD34" 0 0 "s" "g"
    (by decide) (by decide)).2.1

/-- Claim C7 counterexample: a request whose credential validates but whose
link is not verified is rejected with NOT_VERIFIED, yet the stored
last-used timestamp has been updated: the store after the call differs from
the store before, and the single record now carries apiKeyLastUsed 42. -/
theorem authMiddleware_touches_despite_rejection :
    (authMiddleware sampleHash (fun _ _ => false) 42 0 [("s", sampleLink)]
        sampleRequest).1 = AuthOutcome.linkNotVerified ∧
    (authMiddleware sampleHash (fun _ _ => false) 42 0 [("s", sampleLink)]
        sampleRequest).2 ≠ [("s", sampleLink)] ∧
    ((authMiddleware sampleHash (fun _ _ => false) 42 0 [("s", sampleLink)]
        sampleRequest).2.map fun p => p.2.apiKeyLastUsed) = [some 42] := by
  decide

/-- Claim C7 (corrected): the links store left behind by authMiddleware is
exactly the store left by the credential-validation stage: the last-used
stamp is written iff the request carries a well-formed bearer token whose
hash matches a stored credential, regardless of any later rejection
(verification status, timestamp, signature, place scope); a request
rejected before or at credential validation leaves the store unchanged. -/
theorem authMiddleware_touch_at_validate (hash : String → String)
    (verifySig : String → String → Bool) (now : Nat) (nowSec : Int)
    (links : Links) (req : AuthRequest) :
    (authMiddleware hash verifySig now nowSec links req).2 =
      (match extractApiKey req with
       | some k => (validateApiKey hash now links k).2
       | none => links) := by
  unfold authMiddleware extractApiKey
  cases req.authHeader with
  | none => rfl
  | some h =>
    cases hbw : strStartsWith h "Bearer " with
    | false => simp [hbw]
    | true =>
      by_cases hlen : (strDrop h 7).length < 32
      · simp [hbw, hlen]
      · rcases hv : validateApiKey hash now links (strDrop h 7) with ⟨olink, l1⟩
        cases olink with
        | none => simp [hbw, hlen, hv]
        | some link =>
          cases hvv : link.verified with
          | false => simp [hbw, hlen, hv, hvv]
          | true =>
            cases hts : req.timestamp with
            | none => simp [hbw, hlen, hv, hvv, hts]
            | some ts =>
              cases ht : validateTimestamp nowSec ts 300 with
              | false => simp [hbw, hlen, hv, hvv, hts, ht]
              | true =>
                cases hsg : req.signature with
                | none =>
                  cases hpid : req.placeId with
                  | none => simp [hbw, hlen, hv, hvv, hts, ht, hsg, hpid]
                  | some pid =>
                    by_cases hpl : pid ∈ link.placeIds <;>
                      simp [hbw, hlen, hv, hvv, hts, ht, hsg, hpid, hpl]
                | some s =>
                  cases hvs : verifySig s (strDrop h 7) with
                  | false => simp [hbw, hlen, hv, hvv, hts, ht, hsg, hvs]
                  | true =>
                    cases hpid : req.placeId with
                    | none => simp [hbw, hlen, hv, hvv, hts, ht, hsg, hvs, hpid]
                    | some pid =>
                      by_cases hpl : pid ∈ link.placeIds <;>
                        simp [hbw, hlen, hv, hvv, hts, ht, hsg, hvs, hpid, hpl]

/-- Scanning the store right after a JS object assignment finds the newly
stored record, provided no other record satisfies the predicate. -/
theorem find?_setLink (links : Links) (sid : String) (L : RobloxLink)
    (p : String × RobloxLink → Bool)
    (hother : ∀ q ∈ links, q.1 ≠ sid → p q = false)
    (hL : p (sid, L) = true) :
    List.find? p (setLink links sid L) = some (sid, L) := by
  unfold setLink
  by_cases hany : List.any links (fun q => q.1 == sid) = true
  · rw [if_pos hany]
    induction links with
    | nil => simp at hany
    | cons a l ih =>
      by_cases ha : a.1 = sid
      · rw [List.map_cons, if_pos ha]
        exact List.find?_cons_of_pos _ hL
      · have hpa : p a = false := hother a (List.mem_cons_self a l) ha
        rw [List.map_cons, if_neg ha]
        rw [List.find?_cons_of_neg _ (by simp [hpa])]
        have hany2 : List.any l (fun q => q.1 == sid) = true := by
          rw [List.any_cons] at hany
          rcases Bool.or_eq_true_iff.mp hany with h1 | h1
          · exact absurd (beq_iff_eq.mp h1) ha
          · exact h1
        exact ih (fun q hq hne => hother q (List.mem_cons_of_mem _ hq) hne) hany2
  · rw [if_neg hany]
    rw [List.find?_append]
    have hnone : List.find? p links = none := by
      rw [List.find?_eq_none]
      intro q hq
      have hne : q.1 ≠ sid := by
        intro heq
        exact hany (List.any_eq_true.mpr ⟨q, hq, beq_iff_eq.mpr heq⟩)
      simp [hother q hq hne]
    rw [hnone, List.find?_singleton, if_pos hL]
    rfl

/-- Scanning the store right after a keyed update finds the updated record
of that key, provided no other record satisfies the predicate. -/
theorem find?_mapAtKey (links : Links) (sid : String)
    (f : RobloxLink → RobloxLink) (L : RobloxLink)
    (p : String × RobloxLink → Bool)
    (hget : getLink links sid = some L)
    (hother : ∀ q ∈ links, q.1 ≠ sid → p q = false)
    (hL : p (sid, f L) = true) :
    List.find? p (mapAtKey links sid f) = some (sid, f L) := by
  induction links with
  | nil => simp [getLink] at hget
  | cons a l ih =>
    by_cases ha : a.1 = sid
    · have hLa : L = a.2 := by
        unfold getLink at hget
        rw [@List.find?_cons_of_pos _ (fun q => q.1 == sid) a l (by simp [ha])] at hget
        simpa using hget.symm
      unfold mapAtKey
      rw [List.map_cons, if_pos ha]
      have hhead : (a.1, f a.2) = (sid, f L) := by rw [ha, hLa]
      rw [hhead]
      exact List.find?_cons_of_pos _ hL
    · have hpa : p a = false := hother a (List.mem_cons_self a l) ha
      have hget2 : getLink l sid = some L := by
        unfold getLink at hget ⊢
        rwa [@List.find?_cons_of_neg _ (fun q => q.1 == sid) a l (by simp [ha])] at hget
      unfold mapAtKey at ih ⊢
      rw [List.map_cons, if_neg ha]
      rw [List.find?_cons_of_neg _ (by simp [hpa])]
      exact ih hget2 fun q hq hne => hother q (List.mem_cons_of_mem _ hq) hne

/-- Claim C9 (confirmed): issuing a credential through createLink and
immediately validating the returned plaintext yields the stored record of
that tenant; after regenerateApiKey, the previous plaintext no longer
validates while the newly returned plaintext yields the updated record.
Hypotheses model the cryptography: the salted digest is collision-free on
the keys involved (injective hash) and freshly generated keys do not
collide with hashes already in the store. -/
theorem credentialStore_roundtrip
    (hash : String → String) (hinj : Function.Injective hash)
    (apiKey newKey : String) (now1 now2 now3 : Nat)
    (links : Links) (sid gid : String) (pids : List String)
    (hfresh : ∀ q ∈ links, q.2.apiKeyHash ≠ hash apiKey) :
    ((validateApiKey hash now2
        (createLink hash apiKey now1 links sid gid pids).2 apiKey).1 =
      some (createLink hash apiKey now1 links sid gid pids).1) ∧
    (∀ (links2 : Links) (L : RobloxLink) (oldKey : String),
      getLink links2 sid = some L →
      L.apiKeyHash = hash oldKey →
      oldKey ≠ newKey →
      (∀ q ∈ links2, q.1 ≠ sid → q.2.apiKeyHash ≠ hash oldKey) →
      (∀ q ∈ links2, q.1 ≠ sid → q.2.apiKeyHash ≠ hash newKey) →
      (validateApiKey hash now3
          (regenerateApiKey hash newKey now2 links2 sid) oldKey).1 = none ∧
      (validateApiKey hash now3
          (regenerateApiKey hash newKey now2 links2 sid) newKey).1 =
        some { L with
               apiKeyHash := hash newKey
               apiKeyCreated := now2
               apiKeyLastUsed := none
               updatedAt := now2 }) := by
  constructor
  · have hfind := find?_setLink links sid
      (createLink hash apiKey now1 links sid gid pids).1
      (fun q => q.2.apiKeyHash == hash apiKey)
      (fun q hq _ => beq_eq_false_iff_ne.mpr (hfresh q hq))
      (beq_iff_eq.mpr rfl)
    have h2 : (createLink hash apiKey now1 links sid gid pids).2 =
        setLink links sid (createLink hash apiKey now1 links sid gid pids).1 := rfl
    unfold validateApiKey
    rw [h2, hfind]
  · intro links2 L oldKey hget hold hne hfreshOld hfreshNew
    have hre : regenerateApiKey hash newKey now2 links2 sid =
        mapAtKey links2 sid (fun l =>
          { l with
            apiKeyHash := hash newKey
            apiKeyCreated := now2
            apiKeyLastUsed := none
            updatedAt := now2 }) := rfl
    constructor
    · have hnone : List.find?
          (fun p => p.2.apiKeyHash == hash oldKey)
          (regenerateApiKey hash newKey now2 links2 sid) = none := by
        rw [List.find?_eq_none]
        intro x hx
        rw [hre] at hx
        unfold mapAtKey at hx
        obtain ⟨q, hq, hqx⟩ := List.mem_map.mp hx
        by_cases hqs : q.1 = sid
        · rw [if_pos hqs] at hqx
          subst hqx
          simp only [beq_iff_eq]
          intro hcol
          exact hne (hinj hcol).symm
        · rw [if_neg hqs] at hqx
          subst hqx
          simp [hfreshOld q hq hqs]
      unfold validateApiKey
      rw [hnone]
    · have hfind := find?_mapAtKey links2 sid
        (fun l =>
          { l with
            apiKeyHash := hash newKey
            apiKeyCreated := now2
            apiKeyLastUsed := none
            updatedAt := now2 }) L
        (fun q => q.2.apiKeyHash == hash newKey) hget
        (fun q hq hne2 => beq_eq_false_iff_ne.mpr (hfreshNew q hq hne2))
        (beq_iff_eq.mpr rfl)
      unfold validateApiKey
      rw [hre, hfind]

/-- Witness for C9: the identity digest (injective) on an empty store, with
the two fixture keys. -/
theorem credentialStore_roundtrip_witness :
    ((validateApiKey sampleHash 1
        (createLink sampleHash sampleKey 0 [] "s" "g" []).2 sampleKey).1 =
      some (createLink sampleHash sampleKey 0 [] "s" "g" []).1) ∧
    (validateApiKey sampleHash 2
        (regenerateApiKey sampleHash sampleKey2 1
          (createLink sampleHash sampleKey 0 [] "s" "g" []).2 "s") sampleKey).1 =
      none := by
  have h := credentialStore_roundtrip sampleHash (fun a b hab => hab)
    sampleKey sampleKey2 0 1 2 [] "s" "g" [] (by simp)
  refine ⟨h.1, ?_⟩
  exact (h.2 (createLink sampleHash sampleKey 0 [] "s" "g" []).2
    (createLink sampleHash sampleKey 0 [] "s" "g" []).1 sampleKey
    (by decide) (by decide) (by decide) (by decide) (by decide)).1

/-- Claim C8 (confirmed): a job whose requested rank equals the current
rank of the subject in the external group is marked completed without any
mutating set-rank call, so the external group state is unchanged. -/
theorem processJob_idempotent (env : RobloxEnv) (now : Nat) (links : Links)
    (queue : List SyncJob) (job : SyncJob) (link : RobloxLink)
    (targetRole userRole : GroupRole)
    (hlink : getLink links job.serverId = some link)
    (hver : link.verified = true)
    (htarget : List.find? (fun r => r.rank == job.newRank)
      (env.getGroupRoles link.groupId) = some targetRole)
    (huser : env.getUserRoleInGroup job.robloxUserId link.groupId = some userRole)
    (hrank : userRole.rank = job.newRank) :
    (processJob env now links queue job).setRankCalls = [] ∧
    (processJob env now links queue job).success = true ∧
    ∀ j ∈ (processJob env now links queue job).queue,
      j.id = job.id → j.status = .completed := by
  have hdec : syncDecision env links job = .ok none := by
    simp [syncDecision, hlink, hver, htarget, huser, hrank]
  refine ⟨?_, ?_, ?_⟩
  · simp [processJob, hdec]
  · simp [processJob, hdec]
  · intro j hj hid
    simp only [processJob, hdec] at hj
    obtain ⟨j1, hj1, heq⟩ := mem_updateJobIn hj
    by_cases h1 : j1.id = job.id
    · rw [heq, if_pos h1]
      rfl
    · rw [heq, if_neg h1] at hid ⊢
      exact absurd hid h1

/-- Witness for C8 at the concrete fixtures: identity u already holds rank
3, the requested rank; the job completes with no set-rank call. -/
theorem processJob_idempotent_witness :
    (processJob sampleEnv 5 [("s", verifiedLink)] [sampleJob] sampleJob).setRankCalls
      = [] ∧
    (processJob sampleEnv 5 [("s", verifiedLink)] [sampleJob] sampleJob).success
      = true := by
  have h := processJob_idempotent sampleEnv 5 [("s", verifiedLink)] [sampleJob]
    sampleJob verifiedLink roleMember roleMember
    (by decide) (by decide) (by decide) (by decide) (by decide)
  exact ⟨h.1, h.2.1⟩

/-- Claim C1 counterexample: a first-attempt job (attempts 0, maxAttempts
3) whose tenant has no LinkRecord is not made terminal: processJob reports
the LINK_NOT_FOUND domain error, yet the stored job ends up retrying with a
next_retry_at five minutes out, not failed. -/
theorem processJob_domain_error_retries :
    (processJob emptyEnv 0 [] [sampleJob] sampleJob).jobError =
      some JobError.linkNotFound ∧
    ((processJob emptyEnv 0 [] [sampleJob] sampleJob).queue.map SyncJob.status) =
      [SyncStatus.retrying] ∧
    ((processJob emptyEnv 0 [] [sampleJob] sampleJob).queue.map SyncJob.nextRetryAt) =
      [some 300000] := by
  decide

/-- Claim C1 (corrected): a non-retryable domain error (missing link,
unverified tenant, rank absent from the catalog, subject not a member) is
handled by processJob exactly like a transient error: markFailed runs with
allowRetry true, so while the incremented attempt count is below
maxAttempts the job is placed in retrying with a next_retry_at, and it only
becomes failed (with completed_at) on the attempt that reaches
maxAttempts. -/
theorem processJob_domain_error (env : RobloxEnv) (now : Nat) (links : Links)
    (queue : List SyncJob) (job : SyncJob) (e : JobError)
    (hdec : syncDecision env links job = .error e)
    (hq : ∀ j ∈ queue, j.id = job.id → j = job) :
    (processJob env now links queue job).success = false ∧
    (processJob env now links queue job).jobError = some e ∧
    ∀ j ∈ (processJob env now links queue job).queue, j.id = job.id →
      (job.attempts + 1 < job.maxAttempts →
        j.status = .retrying ∧
        j.nextRetryAt = some (now + backoffDelayMinutes (job.attempts + 1) * 60 * 1000)) ∧
      (job.maxAttempts ≤ job.attempts + 1 →
        j.status = .failed ∧ j.completedAt = some now) := by
  refine ⟨by simp [processJob, hdec], by simp [processJob, hdec], ?_⟩
  intro j hj hid
  simp only [processJob, hdec] at hj
  obtain ⟨j1, hj1, heq⟩ := mem_updateJobIn hj
  by_cases h1 : j1.id = job.id
  · rw [heq, if_pos h1] at hid ⊢
    obtain ⟨j2, hj2, heq2⟩ := mem_updateJobIn hj1
    by_cases h2 : j2.id = job.id
    · have hjob : j2 = job := hq j2 hj2 h2
      rw [heq2, if_pos h2, hjob]
      constructor
      · intro hlt
        unfold markFailedJob markInProgressJob
        rw [if_pos ⟨by trivial, hlt⟩]
        exact ⟨rfl, rfl⟩
      · intro hge
        unfold markFailedJob markInProgressJob
        rw [if_neg fun hc => absurd hc.2 (Nat.not_lt.mpr hge)]
        exact ⟨rfl, rfl⟩
    · rw [heq2, if_neg h2] at h1
      exact absurd h1 h2
  · rw [heq, if_neg h1] at hid
    exact absurd hid h1

/-- Witness for the corrected C1: the concrete missing-link run, through
the general theorem. -/
theorem processJob_domain_error_witness :
    (processJob emptyEnv 0 [] [sampleJob] sampleJob).success = false ∧
    (processJob emptyEnv 0 [] [sampleJob] sampleJob).jobError =
      some JobError.linkNotFound := by
  have h := processJob_domain_error emptyEnv 0 [] [sampleJob] sampleJob
    JobError.linkNotFound rfl (by decide)
  exact ⟨h.1, h.2.1⟩

/-- The job record addJob builds satisfies the per-job attempts invariant:
the zero-falsy default makes maxAttempts at least 1. -/
theorem goodJob_mkJob (now id : Nat) (d : JobInput) : GoodJob (mkJob now id d) := by
  have hmax : 1 ≤ (mkJob now id d).maxAttempts := by
    rcases hd : d.maxAttempts with _ | m
    · simp [mkJob, hd]
    · by_cases hm : m = 0
      · simp [mkJob, hd, hm]
      · simp [mkJob, hd, hm]
        omega
  have hatt : (mkJob now id d).attempts = 0 := rfl
  exact ⟨hmax, by omega, fun _ => by omega⟩

/-- Every system step preserves the attempts invariant. -/
theorem qstep_attempts_inv {op : QueueOp} {q q2 : List SyncJob}
    (hs : QStep op q q2) (hinv : AttemptsInv q) : AttemptsInv q2 := by
  cases hs with
  | enqueue now id d q hpend =>
    intro j hj
    rcases List.mem_append.mp hj with hj | hj
    · exact hinv j hj
    · have hj2 : j = mkJob now id d := by simpa using hj
      rw [hj2]
      exact goodJob_mkJob now id d
  | workerStart now id q hready =>
    intro j hj
    obtain ⟨j0, hj0, heq⟩ := mem_updateJobIn hj
    by_cases h0 : j0.id = id
    · rw [heq, if_pos h0]
      obtain ⟨hm1, hm2, hm3⟩ := hinv j0 hj0
      have hlt : j0.attempts < j0.maxAttempts := by
        apply hm3
        rcases isReady_status (hready j0 hj0 h0) with h | h <;> simp [h]
      exact ⟨hm1, hm2, fun _ => hlt⟩
    · rw [heq, if_neg h0]
      exact hinv j0 hj0
  | workerComplete now id q hip =>
    intro j hj
    obtain ⟨j0, hj0, heq⟩ := mem_updateJobIn hj
    by_cases h0 : j0.id = id
    · rw [heq, if_pos h0]
      obtain ⟨hm1, hm2, hm3⟩ := hinv j0 hj0
      exact ⟨hm1, hm2, fun hc => absurd rfl hc.1⟩
    · rw [heq, if_neg h0]
      exact hinv j0 hj0
  | workerFail now id msg retry q hip =>
    intro j hj
    obtain ⟨j0, hj0, heq⟩ := mem_updateJobIn hj
    by_cases h0 : j0.id = id
    · rw [heq, if_pos h0]
      obtain ⟨hm1, hm2, hm3⟩ := hinv j0 hj0
      have hlt : j0.attempts < j0.maxAttempts := by
        apply hm3
        simp [hip j0 hj0 h0]
      simp only [markFailedJob]
      by_cases hc : retry = true ∧ j0.attempts + 1 < j0.maxAttempts
      · rw [if_pos hc]
        exact ⟨hm1, Nat.le_of_lt hc.2, fun _ => hc.2⟩
      · rw [if_neg hc]
        exact ⟨hm1, by show j0.attempts + 1 ≤ j0.maxAttempts; omega,
          fun hterm => absurd rfl hterm.2⟩
    · rw [heq, if_neg h0]
      exact hinv j0 hj0
  | retryFailed now sid q =>
    intro j hj
    unfold retryFailedJobs at hj
    obtain ⟨j0, hj0, heq⟩ := List.mem_map.mp hj
    obtain ⟨hm1, hm2, hm3⟩ := hinv j0 hj0
    by_cases hc : j0.status = .failed ∧ (sid = none ∨ sid = some j0.serverId)
    · rw [← heq, if_pos hc]
      exact ⟨hm1, by show (0:Nat) ≤ j0.maxAttempts; omega,
        fun _ => by show (0:Nat) < j0.maxAttempts; omega⟩
    · rw [← heq, if_neg hc]
      exact ⟨hm1, hm2, hm3⟩
  | cancelUser sid uid q =>
    intro j hj
    exact hinv j (List.mem_filter.mp hj).1
  | cleanCompleted cutoff q =>
    intro j hj
    exact hinv j (List.mem_filter.mp hj).1
  | clearServer sid q =>
    intro j hj
    exact hinv j (List.mem_filter.mp hj).1

/-- The attempts invariant holds in every reachable queue state. -/
theorem qreach_attempts_inv {q : List SyncJob} (h : QReach q) : AttemptsInv q := by
  induction h with
  | init => intro j hj; simp at hj
  | step op q q2 hr hs ih => exact qstep_attempts_inv hs ih

/-- Every system step other than the operator retry preserves the
at-most-one-pending invariant per (tenant, identity) pair. -/
theorem qstep_pair_inv {op : QueueOp} {q q2 : List SyncJob}
    (hs : QStep op q q2) (hop : op.isRetryOp = false) (hinv : PairInv q) :
    PairInv q2 := by
  cases hs with
  | enqueue now id d q hpend =>
    intro sid uid
    unfold addJob
    rw [List.countP_append]
    by_cases hmatch : sid = d.serverId ∧ uid = d.robloxUserId
    · obtain ⟨h1, h2⟩ := hmatch
      subst h1
      subst h2
      rw [countP_eq_zero_of_no_pending hpend, Nat.zero_add,
        List.countP_cons, List.countP_nil]
      split <;> omega
    · have hnew : pendingPred sid uid (mkJob now id d) = false := by
        unfold pendingPred
        rcases not_and_or.mp hmatch with h | h
        · have hb : ((mkJob now id d).serverId == sid) = false :=
            beq_eq_false_iff_ne.mpr fun hh => h hh.symm
          simp [hb]
        · have hb : ((mkJob now id d).robloxUserId == uid) = false :=
            beq_eq_false_iff_ne.mpr fun hh => h hh.symm
          simp [hb]
      rw [List.countP_cons, List.countP_nil, if_neg (by simp [hnew])]
      simpa using hinv sid uid
  | workerStart now id q hready =>
    intro sid uid
    unfold markInProgress updateJobIn
    rw [countP_eq_of_map ?hcong]
    · exact hinv sid uid
    case hcong =>
      intro a ha
      by_cases h0 : a.id = id
      · rw [if_pos h0]
        unfold pendingPred nonTerminal markInProgressJob
        rcases isReady_status (hready a ha h0) with h | h <;> simp [h]
      · rw [if_neg h0]
  | workerComplete now id q hip =>
    intro sid uid
    unfold markCompleted updateJobIn
    refine le_trans (countP_le_of_map ?hpoint) (hinv sid uid)
    case hpoint =>
      intro a ha hpga
      by_cases h0 : a.id = id
      · rw [if_pos h0] at hpga
        exfalso
        unfold pendingPred nonTerminal markCompletedJob at hpga
        simp at hpga
      · rwa [if_neg h0] at hpga
  | workerFail now id msg retry q hip =>
    intro sid uid
    unfold markFailed updateJobIn
    refine le_trans (countP_le_of_map ?hpoint) (hinv sid uid)
    case hpoint =>
      intro a ha hpga
      by_cases h0 : a.id = id
      · rw [if_pos h0] at hpga
        have hst := hip a ha h0
        have hsrv : (markFailedJob now msg retry a).serverId = a.serverId := by
          simp only [markFailedJob]
          split <;> rfl
        have husr : (markFailedJob now msg retry a).robloxUserId = a.robloxUserId := by
          simp only [markFailedJob]
          split <;> rfl
        unfold pendingPred at hpga ⊢
        rw [hsrv, husr, Bool.and_eq_true, Bool.and_eq_true] at hpga
        have hnt : nonTerminal a = true := by simp [nonTerminal, hst]
        simp [hpga.1.1, hpga.1.2, hnt]
      · rwa [if_neg h0] at hpga
  | retryFailed now sid q =>
    simp [QueueOp.isRetryOp] at hop
  | cancelUser sid uid q =>
    intro s u
    unfold cancelUserJobs
    exact le_trans (countP_filter_le _ _ _) (hinv s u)
  | cleanCompleted cutoff q =>
    intro s u
    unfold cleanCompletedJobs
    exact le_trans (countP_filter_le _ _ _) (hinv s u)
  | clearServer sid q =>
    intro s u
    unfold clearServerJobs
    exact le_trans (countP_filter_le _ _ _) (hinv s u)

/-- Claim C3 counterexample: a reachable state in which the pair (s, u) has
two non-terminal jobs at once. The trace: enqueue a job, let the worker
exhaust its three attempts so it becomes failed, enqueue a second job for
the same pair (accepted, since the first is terminal), then run the
operator retry-failed: both jobs are now queued. -/
theorem retryFailed_breaks_pair_invariant :
    QReach traceQ9 ∧ ¬ PairInv traceQ9 := by
  constructor
  · have h0 : QReach ([] : List SyncJob) := QReach.init
    have h1 := QReach.step _ _ _ h0 (QStep.enqueue 0 1 sampleInput [] (by decide))
    have h2 := QReach.step _ _ _ h1 (QStep.workerStart 0 1 traceQ1 (by decide))
    have h3 := QReach.step _ _ _ h2
      (QStep.workerFail 0 1 "timeout" true traceQ2 (by decide))
    have h4 := QReach.step _ _ _ h3 (QStep.workerStart 300000 1 traceQ3 (by decide))
    have h5 := QReach.step _ _ _ h4
      (QStep.workerFail 300000 1 "timeout" true traceQ4 (by decide))
    have h6 := QReach.step _ _ _ h5 (QStep.workerStart 900000 1 traceQ5 (by decide))
    have h7 := QReach.step _ _ _ h6
      (QStep.workerFail 900000 1 "timeout" true traceQ6 (by decide))
    have h8 := QReach.step _ _ _ h7
      (QStep.enqueue 900000 2 sampleInput traceQ7 (by decide))
    exact QReach.step _ _ _ h8 (QStep.retryFailed 900000 none traceQ8)
  · intro h
    exact absurd (h "s" "u") (by decide)

/-- Claim C3 (corrected): the at-most-one-non-terminal-job-per-pair
property is an enqueue-time guarantee: queueSync rejects a new job with
DUPLICATE_PENDING (leaving the queue unchanged) whenever the pair already
has a non-terminal job, and every system operation except the operator
retry-failed preserves the invariant; retry-failed can violate it (see the
counterexample), so it does not hold at every moment. -/
theorem queueSync_pair_invariant :
    (∀ (now id : Nat) (links : Links) (q : List SyncJob) (d : SyncData)
       (link : RobloxLink),
      getLink links d.serverId = some link → link.verified = true →
      hasPendingSync d.serverId d.robloxUserId q = true →
      queueSync now id links q d = (.duplicatePending, q)) ∧
    (∀ (op : QueueOp) (q q2 : List SyncJob), QStep op q q2 →
      op.isRetryOp = false → PairInv q → PairInv q2) := by
  constructor
  · intro now id links q d link hl hv hp
    simp [queueSync, hl, hv, hp]
  · intro op q q2 hs hop hinv
    exact qstep_pair_inv hs hop hinv

/-- Witness for the corrected C3: the concrete duplicate rejection. -/
theorem queueSync_pair_invariant_witness :
    queueSync 3 9 [("s", verifiedLink)] [sampleJob] sampleSyncData =
      (QueueSyncResult.duplicatePending, [sampleJob]) :=
  queueSync_pair_invariant.1 3 9 [("s", verifiedLink)] [sampleJob]
    sampleSyncData verifiedLink (by decide) (by decide) (by decide)

/-- Claim C4 (confirmed): attempts never exceeds maxAttempts in any
reachable queue state; a markFailed call whose incremented attempt count
reaches maxAttempts marks the job failed with completed_at regardless of
the allowRetry flag; no system operation other than the operator
retry-failed ever touches a failed job (it stays in the queue unchanged,
except for whole-server deletion); and the operator re-queue resets the
job to queued with attempts 0 and no next_retry_at. -/
theorem attempts_cap_terminal :
    (∀ (now : Nat) (msg : String) (r : Bool) (j : SyncJob),
      j.maxAttempts ≤ j.attempts + 1 →
      (markFailedJob now msg r j).status = .failed ∧
      (markFailedJob now msg r j).completedAt = some now) ∧
    (∀ q : List SyncJob, QReach q → ∀ j ∈ q, j.attempts ≤ j.maxAttempts) ∧
    (∀ (op : QueueOp) (q q2 : List SyncJob), QStep op q q2 →
      op.isRetryOp = false → ∀ j ∈ q, j.status = .failed →
      j ∈ q2 ∨ ∃ sid, op = QueueOp.clearServer sid) ∧
    (∀ (now : Nat) (sid : Option String) (q : List SyncJob) (j : SyncJob),
      j ∈ q → j.status = .failed → (sid = none ∨ sid = some j.serverId) →
      { j with status := .queued, attempts := 0, nextRetryAt := none, updatedAt := now }
        ∈ retryFailedJobs now sid q) := by
  refine ⟨?_, ?_, ?_, ?_⟩
  · intro now msg r j h
    unfold markFailedJob
    rw [if_neg fun hc => absurd hc.2 (Nat.not_lt.mpr h)]
    exact ⟨rfl, rfl⟩
  · intro q hq j hj
    exact (qreach_attempts_inv hq j hj).2.1
  · intro op q q2 hs hop j hj hfail
    cases hs with
    | enqueue now id d q hpend =>
      exact Or.inl (List.mem_append_left _ hj)
    | workerStart now id q hready =>
      refine Or.inl (List.mem_map.mpr ⟨j, hj, ?_⟩)
      rw [if_neg fun h0 => ?_]
      rcases isReady_status (hready j hj h0) with h | h <;> rw [hfail] at h <;>
        exact SyncStatus.noConfusion h
    | workerComplete now id q hip =>
      refine Or.inl (List.mem_map.mpr ⟨j, hj, ?_⟩)
      rw [if_neg fun h0 => ?_]
      have h := hip j hj h0
      rw [hfail] at h
      exact SyncStatus.noConfusion h
    | workerFail now id msg retry q hip =>
      refine Or.inl (List.mem_map.mpr ⟨j, hj, ?_⟩)
      rw [if_neg fun h0 => ?_]
      have h := hip j hj h0
      rw [hfail] at h
      exact SyncStatus.noConfusion h
    | retryFailed now sid q =>
      simp [QueueOp.isRetryOp] at hop
    | cancelUser sid uid q =>
      refine Or.inl (List.mem_filter.mpr ⟨hj, ?_⟩)
      simp [hfail]
    | cleanCompleted cutoff q =>
      refine Or.inl (List.mem_filter.mpr ⟨hj, ?_⟩)
      simp [hfail]
    | clearServer sid q =>
      exact Or.inr ⟨sid, rfl⟩
  · intro now sid q j hj hfail hsid
    unfold retryFailedJobs
    exact List.mem_map.mpr ⟨j, hj, by rw [if_pos ⟨hfail, hsid⟩]⟩

/-- Witness for C4: the concrete third failure of a job with maxAttempts 3
goes terminal even with allowRetry true. -/
theorem attempts_cap_terminal_witness :
    (markFailedJob 9 "boom" true capJob).status = .failed ∧
    (markFailedJob 9 "boom" true capJob).completedAt = some 9 :=
  attempts_cap_terminal.1 9 "boom" true capJob (by decide)

end KS